import Mathlib

/-!
Shallow embedding of `2.GUI_preprocssing.py` (Spectroradiometer preprocessing
tool).  The application keeps an optional tabular dataset (`self.data`) and an
optional source path (`self.loaded_file_path`), and wires five user actions to
them: loading a spreadsheet, displaying it as a table, plotting it, activating
filter mode, and finalizing a Savitzky-Golay filter pass (which smooths the
non-wavelength columns, writes an output file, and redisplays).

External library calls (`pd.read_excel`, `scipy.signal.savgol_filter`,
`DataFrame.to_excel`, the file dialog) are modelled as oracles: each handler
takes the outcome of the call as a parameter (`Except`/`Option`), so that the
handler's own control flow is translated exactly while the library's verdict
stays abstract.  Observable behaviour (console prints, widget updates, file
writes, message boxes, uncaught exceptions) is collected in a list of
`Effect`s returned alongside the new state.
-/

namespace Spectro

/-- One spreadsheet cell: a numeric entry (modelled exactly by a rational) or
a text entry. -/
inductive Value where
  | num (q : ℚ)
  | str (s : String)
deriving DecidableEq, Repr

/-- A named column of the dataset. -/
structure Column where
  name : String
  values : List Value
deriving DecidableEq, Repr

/-- `self.data`: an ordered sequence of named columns. -/
abbrev Dataset := List Column

/-- Python `str.lower` as used on the (ASCII) column names: lower-case the
string character by character. -/
def pyLower (s : String) : String :=
  String.mk (s.toList.map Char.toLower)

/-- The test `col.lower() == "wavelength"` used in `plot_data` and
`finished_filtering`. -/
def isWavelength (name : String) : Bool :=
  pyLower name == "wavelength"

/-- `len(self.data)`: the number of rows.  A loaded pandas frame is
rectangular, so the row count is read off the first column. -/
def datasetRows (d : Dataset) : Nat :=
  match d with
  | [] => 0
  | c :: _ => c.values.length

/-- Python `str` applied to one cell value. -/
def pyStr : Value → String
  | .num q => toString q
  | .str s => s

/-- Index of the last occurrence of `ch` in `cs`, if any. -/
def lastIdxOf (cs : List Char) (ch : Char) : Option Nat :=
  ((List.range cs.length).filter (fun i => cs.getD i ' ' == ch)).getLast?

/-- `os.path.splitext` (POSIX): split off the extension at the last dot,
provided that dot lies in the basename and is preceded there by at least one
non-dot character (so `.bashrc` keeps an empty extension). -/
def splitext (p : String) : String × String :=
  let cs := p.toList
  match lastIdxOf cs '.' with
  | none => (p, "")
  | some dot =>
    let start :=
      match lastIdxOf cs '/' with
      | none => 0
      | some sep => sep + 1
    if start ≤ dot then
      if ((List.range dot).drop start).any (fun k => cs.getD k '.' != '.') then
        (String.mk (cs.take dot), String.mk (cs.drop dot))
      else (p, "")
    else (p, "")

/-- The window normalization at the head of `finished_filtering`:
increment an even window, then repair `window <= poly_order` by jumping to
`poly_order + 2` (or `poly_order + 3` when that is even). -/
def normalizeWindow (window poly_order : Nat) : Nat :=
  let window := if window % 2 == 0 then window + 1 else window
  if window ≤ poly_order then
    if (poly_order + 2) % 2 != 0 then poly_order + 2 else poly_order + 3
  else window

/-- The grid the table widget shows after `display_data`: row/column counts,
header labels, and the stringified cells (`none` models a cell whose lookup
raised). -/
structure Grid where
  nrows : Nat
  ncols : Nat
  headers : List String
  cells : List (List (Option String))
deriving DecidableEq, Repr

/-- `self.data.iloc[i][col]`: take row `i`, then look the value up by column
label (first matching column, as pandas does for a unique label). -/
def ilocCell (d : Dataset) (i : Nat) (name : String) : Option Value :=
  (d.find? (fun c => c.name == name)).bind (fun c => c.values[i]?)

/-- The body of `display_data` for a present dataset: clear the table, set
row/column counts and header labels, and fill every cell with
`str(self.data.iloc[i][col])`. -/
def renderTable (d : Dataset) : Grid :=
  { nrows := datasetRows d
    ncols := d.length
    headers := d.map Column.name
    cells := (List.range (datasetRows d)).map (fun i =>
      d.map (fun c => (ilocCell d i c.name).map pyStr)) }

/-- Observable effects of one handler invocation: console diagnostics,
widget updates, the attempted output write, the confirmation box, and an
uncaught exception escaping the handler. -/
inductive Effect where
  | diagNoData
  | diagLoadError (e : String)
  | diagLoadSuccess
  | diagPlotPrecondition
  | diagFilterModeActivated
  | diagLoadFirst
  | diagFilterColumnError (col : String)
  | diagSavedTo (path : String)
  | diagSaveError (e : String)
  | diagNoPath
  | showTable (g : Grid)
  | showPlot (x y : String)
  | writeFile (path : String)
  | infoBox (path : String)
  | exception (msg : String)
deriving DecidableEq, Repr

/-- The mutable state owned by the `SpectralPreprocessingTool` window. -/
structure AppState where
  data : Option Dataset
  loaded_file_path : Option String
  preproc_checked : Bool
  filter_controls_visible : Bool
deriving DecidableEq, Repr

/-- The state set up by `__init__`. -/
def initState : AppState :=
  { data := none
    loaded_file_path := none
    preproc_checked := false
    filter_controls_visible := false }

/-- `display_data`: render the current dataset, or report that none is
loaded. -/
def display_data (s : AppState) : AppState × List Effect :=
  match s.data with
  | some d => (s, [Effect.showTable (renderTable d)])
  | none => (s, [Effect.diagNoData])

/-- `load_excel_file`.  The dialog outcome is `none` when the user cancels;
otherwise it carries the chosen path together with the `pd.read_excel`
verdict for that path.  On success `self.data` and `self.loaded_file_path`
are assigned and `display_data` runs; on failure the exception is caught and
printed, leaving the state untouched. -/
def load_excel_file (s : AppState)
    (dialog : Option (String × Except String Dataset)) : AppState × List Effect :=
  match dialog with
  | none => (s, [])
  | some (_, .error e) => (s, [Effect.diagLoadError e])
  | some (fp, .ok d) =>
    let s1 := { s with data := some d, loaded_file_path := some fp }
    let r := display_data s1
    (r.1, Effect.diagLoadSuccess :: r.2)

/-- `plot_data`: with a dataset present, evaluate
`self.data.columns[0].lower() == "wavelength" and len(self.data.columns) > 1`
(the subscript raises `IndexError` on a zero-column frame) and either render
the line chart or print the precondition diagnostic. -/
def plot_data (s : AppState) : AppState × List Effect :=
  match s.data with
  | none => (s, [Effect.diagNoData])
  | some d =>
    match d with
    | [] => (s, [Effect.exception "IndexError"])
    | [_] => (s, [Effect.diagPlotPrecondition])
    | c0 :: c1 :: _ =>
      if isWavelength c0.name then (s, [Effect.showPlot c0.name c1.name])
      else (s, [Effect.diagPlotPrecondition])

/-- `activate_filter_mode`: show the slider panel when a dataset exists. -/
def activate_filter_mode (s : AppState) : AppState × List Effect :=
  match s.data with
  | none => (s, [Effect.diagLoadFirst])
  | some _ =>
    ({ s with filter_controls_visible := true }, [Effect.diagFilterModeActivated])

/-- `toggle_preprocessing_options`: record the checked state; collapsing
also hides the filter controls. -/
def toggle_preprocessing_options (s : AppState) (checked : Bool) :
    AppState × List Effect :=
  if checked then
    ({ s with preproc_checked := true }, [])
  else
    ({ s with preproc_checked := false, filter_controls_visible := false }, [])

/-- Oracle for `scipy.signal.savgol_filter window_length polyorder column`:
`some ys` is a normal return with result `ys`, `none` a raised exception
(caught per column by `finished_filtering`). -/
abbrev Smoother := Nat → Nat → List Value → Option (List Value)

/-- One iteration of the filter loop body on column `c`: skip the wavelength
column, otherwise assign the smoothed values, or catch the exception and
print the per-column diagnostic leaving the column as it was. -/
def filterColumn (sg : Smoother) (window poly_order : Nat) (c : Column) :
    Column × List Effect :=
  if isWavelength c.name then (c, [])
  else
    match sg window poly_order c.values with
    | some ys => ({ c with values := ys }, [])
    | none => (c, [Effect.diagFilterColumnError c.name])

/-- The whole `for col in self.data.columns` loop of `finished_filtering`. -/
def applyFilter (sg : Smoother) (window poly_order : Nat) (d : Dataset) :
    Dataset × List Effect :=
  (d.map (fun c => (filterColumn sg window poly_order c).1),
   (d.map (fun c => (filterColumn sg window poly_order c).2)).flatten)

/-- The save block of `finished_filtering`: when a source path is known,
derive the output path (suffix inserted between basename and extension) and
attempt `to_excel` (verdict `writeRes`), printing the success or failure
message; otherwise print the missing-path diagnostic. -/
def saveEffects (writeRes : Except String Unit) (pathOpt : Option String) :
    List Effect :=
  match pathOpt with
  | some fp =>
    let output_path := (splitext fp).1 ++ "_savitzky_filtered" ++ (splitext fp).2
    match writeRes with
    | .ok _ => [Effect.writeFile output_path, Effect.diagSavedTo output_path,
                Effect.infoBox output_path]
    | .error e => [Effect.writeFile output_path, Effect.diagSaveError e]
  | none => [Effect.diagNoPath]

/-- `finished_filtering`: guard on a loaded dataset, normalize the slider
values, run the filter loop, attempt the output write when a source path is
known (with the `to_excel` verdict passed in as `writeRes`), then redisplay
and hide the filter controls. -/
def finished_filtering (sg : Smoother) (writeRes : Except String Unit)
    (s : AppState) (window poly_order : Nat) : AppState × List Effect :=
  match s.data with
  | none => (s, [Effect.diagNoData])
  | some d =>
    let w := normalizeWindow window poly_order
    let fr := applyFilter sg w poly_order d
    let s1 := { s with data := some fr.1 }
    let r := display_data s1
    ({ r.1 with filter_controls_visible := false },
     fr.2 ++ saveEffects writeRes s.loaded_file_path ++ r.2)

/-- One user-triggered event, carrying the outcomes of the external calls
the handler consults (dialog choice, parse verdict, smoother, write
verdict). -/
inductive Event where
  | load (dialog : Option (String × Except String Dataset))
  | display
  | plot
  | activateFilter
  | finishFilter (sg : Smoother) (writeRes : Except String Unit)
      (window poly_order : Nat)
  | togglePreproc (checked : Bool)

/-- Dispatch one event to its handler, keeping the resulting state. -/
def step (s : AppState) : Event → AppState
  | .load dialog => (load_excel_file s dialog).1
  | .display => (display_data s).1
  | .plot => (plot_data s).1
  | .activateFilter => (activate_filter_mode s).1
  | .finishFilter sg wres w p => (finished_filtering sg wres s w p).1
  | .togglePreproc b => (toggle_preprocessing_options s b).1

/-- The state reached from `__init__` after a sequence of events. -/
def run (es : List Event) : AppState :=
  es.foldl step initState

/-- Numeric view of a column; fails on any text cell (scipy rejects
non-numeric data). -/
def colNums : List Value → Option (List ℚ)
  | [] => some []
  | Value.num q :: xs => (colNums xs).map (fun l => q :: l)
  | Value.str _ :: _ => none

/-- A centered moving average of width `w` (clipped at the borders),
length-preserving by construction. -/
def movingAvg (w : Nat) (l : List ℚ) : List ℚ :=
  (List.range l.length).map (fun i =>
    let win := (l.drop (i - w / 2)).take w
    win.sum / (win.length : ℚ))

/-- Concrete stand-in for the scipy smoother, used to instantiate the
`Smoother` oracle in closed instances: it raises exactly when the
polynomial order is not below the window, the column is shorter than the
window, or the column holds non-numeric data; otherwise it returns a
centered moving average of the column (length-preserving). -/
def savgolModel : Smoother := fun window poly_order xs =>
  match colNums xs with
  | none => none
  | some l =>
    if poly_order < window ∧ window ≤ l.length then
      some ((movingAvg window l).map Value.num)
    else none

/-- A sequence of filter-finalize invocations, each with its own smoother
oracle, write verdict, and slider values, folded over the state. -/
def runFilters (invs : List (Smoother × Except String Unit × Nat × Nat))
    (s : AppState) : AppState :=
  invs.foldl
    (fun st inv => (finished_filtering inv.1 inv.2.1 st inv.2.2.1 inv.2.2.2).1) s

/-! ## Helper lemmas -/

theorem filterColumn_wavelength (sg : Smoother) (w p : Nat) (c : Column)
    (h : isWavelength c.name = true) : (filterColumn sg w p c).1 = c := by
  simp [filterColumn, h]

theorem applyFilter_fst_getElem? (sg : Smoother) (w p : Nat) (d : Dataset)
    (i : Nat) :
    (applyFilter sg w p d).1[i]? =
      (d[i]?).map (fun c => (filterColumn sg w p c).1) := by
  simp [applyFilter]

theorem applyFilter_length (sg : Smoother) (w p : Nat) (d : Dataset) :
    (applyFilter sg w p d).1.length = d.length := by
  simp [applyFilter]

theorem finished_filtering_state (sg : Smoother) (wres : Except String Unit)
    (s : AppState) (w p : Nat) (d : Dataset) (hs : s.data = some d) :
    (finished_filtering sg wres s w p).1.data =
      some (applyFilter sg (normalizeWindow w p) p d).1 := by
  simp [finished_filtering, hs, display_data]

/-! ## C1: window normalization yields an odd window above the order -/

/-- C1: for every slider reading with window_size in `[3,21]` and
polynomial_order in `[1,5]`, the normalization performed at the head of
`finished_filtering` yields a window that is odd and strictly greater than
the polynomial order. -/
theorem normalizeWindow_odd_gt (window poly_order : Nat)
    (hw1 : 3 ≤ window) (hw2 : window ≤ 21)
    (hp1 : 1 ≤ poly_order) (hp2 : poly_order ≤ 5) :
    normalizeWindow window poly_order % 2 = 1 ∧
      poly_order < normalizeWindow window poly_order := by
  interval_cases window <;> interval_cases poly_order <;> decide

theorem normalizeWindow_odd_gt_witness :
    (3 ≤ 4 ∧ 4 ≤ 21 ∧ 1 ≤ 5 ∧ 5 ≤ 5) ∧
      normalizeWindow 4 5 % 2 = 1 ∧ 5 < normalizeWindow 4 5 :=
  ⟨by decide,
    normalizeWindow_odd_gt 4 5 (by decide) (by decide) (by decide) (by decide)⟩

/-! ## C2: wavelength columns pass through filtering bit-identically -/

/-- C2: starting from any state holding a dataset, any number of
consecutive filter-finalize invocations (each with arbitrary smoother
oracle, write verdict and slider values) leaves every column whose name
case-insensitively equals `wavelength` bit-identical at its position. -/
theorem wavelength_column_unchanged
    (invs : List (Smoother × Except String Unit × Nat × Nat))
    (s : AppState) (d : Dataset) (hs : s.data = some d) :
    ∃ d2, (runFilters invs s).data = some d2 ∧ d2.length = d.length ∧
      ∀ (i : Nat) (c : Column), d[i]? = some c → isWavelength c.name = true → d2[i]? = some c := by
  induction invs generalizing s d with
  | nil => exact ⟨d, hs, rfl, fun i c hi _ => hi⟩
  | cons inv tl ih =>
    have h1 := finished_filtering_state inv.1 inv.2.1 s inv.2.2.1 inv.2.2.2 d hs
    obtain ⟨d2, hd2, hlen, hpres⟩ :=
      ih (finished_filtering inv.1 inv.2.1 s inv.2.2.1 inv.2.2.2).1 _ h1
    refine ⟨d2, ?_, ?_, ?_⟩
    · simpa [runFilters] using hd2
    · rw [hlen, applyFilter_length]
    · intro i c hi hw
      refine hpres i c ?_ hw
      rw [applyFilter_fst_getElem?, hi]
      simp [filterColumn_wavelength _ _ _ _ hw]

def dW : Dataset :=
  [⟨"Wavelength", [Value.num 400, Value.num 401, Value.num 402]⟩,
   ⟨"intensity", [Value.num 5, Value.num 6, Value.num 7]⟩]

def sW : AppState :=
  { initState with data := some dW, loaded_file_path := some "/tmp/sample.xlsx" }

theorem wavelength_column_unchanged_witness :
    sW.data = some dW ∧
    ∃ d2,
      (runFilters [(savgolModel, Except.ok (), 7, 2),
        (savgolModel, Except.ok (), 3, 1)] sW).data = some d2 ∧
      d2.length = dW.length ∧
      ∀ (i : Nat) (c : Column), dW[i]? = some c → isWavelength c.name = true → d2[i]? = some c :=
  ⟨rfl,
    wavelength_column_unchanged
      [(savgolModel, Except.ok (), 7, 2), (savgolModel, Except.ok (), 3, 1)]
      sW dW rfl⟩

/-! ## C3: filtering preserves the dataset shape -/

theorem filterColumn_name (sg : Smoother) (w p : Nat) (c : Column) :
    (filterColumn sg w p c).1.name = c.name := by
  unfold filterColumn
  split
  · rfl
  · split <;> rfl

theorem filterColumn_values_length (sg : Smoother) (w p : Nat) (c : Column)
    (hlen : ∀ xs ys, sg w p xs = some ys → ys.length = xs.length) :
    (filterColumn sg w p c).1.values.length = c.values.length := by
  by_cases hw : isWavelength c.name
  · simp [filterColumn, hw]
  · rcases hsg : sg w p c.values with _ | ys
    · simp [filterColumn, hw, hsg]
    · simp [filterColumn, hw, hsg, hlen _ _ hsg]

theorem colNums_length (xs : List Value) (l : List ℚ) (h : colNums xs = some l) :
    l.length = xs.length := by
  induction xs generalizing l with
  | nil =>
    simp only [colNums, Option.some.injEq] at h
    simp [← h]
  | cons x xs ih =>
    rcases x with q | t
    · rcases hc : colNums xs with _ | l2 <;> simp only [colNums, hc] at h
      · exact absurd h (by simp)
      · simp only [Option.map_some', Option.some.injEq] at h
        simp [← h, ih l2 hc]
    · exact absurd h (by simp [colNums])

theorem movingAvg_length (w : Nat) (l : List ℚ) :
    (movingAvg w l).length = l.length := by
  simp [movingAvg]

theorem savgolModel_length (win po : Nat) (xs ys : List Value)
    (h : savgolModel win po xs = some ys) : ys.length = xs.length := by
  rcases hc : colNums xs with _ | l
  · simp [savgolModel, hc] at h
  · simp only [savgolModel, hc] at h
    split at h
    · cases h
      simp [movingAvg_length, colNums_length xs l hc]
    · exact absurd h (by simp)

/-- C3: one filter-finalize invocation preserves the column count, the
column names and their order, and every column's length (hence the row
count), provided the smoother returns a list of the input's length whenever
it succeeds, as `scipy.signal.savgol_filter` does. -/
theorem filter_preserves_shape (sg : Smoother) (wres : Except String Unit)
    (s : AppState) (w p : Nat) (d : Dataset) (hs : s.data = some d)
    (hlen : ∀ win po xs ys, sg win po xs = some ys → ys.length = xs.length) :
    ∃ d2, (finished_filtering sg wres s w p).1.data = some d2 ∧
      d2.length = d.length ∧
      d2.map Column.name = d.map Column.name ∧
      (∀ (i : Nat) (c c2 : Column), d[i]? = some c → d2[i]? = some c2 →
        c2.values.length = c.values.length) ∧
      datasetRows d2 = datasetRows d := by
  refine ⟨(applyFilter sg (normalizeWindow w p) p d).1,
    finished_filtering_state sg wres s w p d hs,
    applyFilter_length sg (normalizeWindow w p) p d, ?_, ?_, ?_⟩
  · show (d.map (fun c => (filterColumn sg (normalizeWindow w p) p c).1)).map
        Column.name = d.map Column.name
    rw [List.map_map]
    exact List.map_congr_left (fun c _ => filterColumn_name sg _ p c)
  · intro i c c2 hi hi2
    rw [applyFilter_fst_getElem?, hi, Option.map_some'] at hi2
    obtain rfl : (filterColumn sg (normalizeWindow w p) p c).1 = c2 :=
      Option.some_injective _ hi2
    exact filterColumn_values_length sg _ p c (fun xs ys => hlen _ p xs ys)
  · rcases d with _ | ⟨c0, tl⟩
    · rfl
    · show datasetRows ((filterColumn sg (normalizeWindow w p) p c0).1 ::
        tl.map (fun c => (filterColumn sg (normalizeWindow w p) p c).1)) =
        datasetRows (c0 :: tl)
      exact filterColumn_values_length sg _ p c0 (fun xs ys => hlen _ p xs ys)

theorem filter_preserves_shape_witness :
    sW.data = some dW ∧
    ∃ d2, (finished_filtering savgolModel (Except.ok ()) sW 7 2).1.data = some d2 ∧
      d2.length = dW.length ∧
      d2.map Column.name = dW.map Column.name ∧
      (∀ (i : Nat) (c c2 : Column), dW[i]? = some c → d2[i]? = some c2 →
        c2.values.length = c.values.length) ∧
      datasetRows d2 = datasetRows dW :=
  ⟨rfl, filter_preserves_shape savgolModel (Except.ok ()) sW 7 2 dW rfl
    savgolModel_length⟩

/-! ## C4: a failing column is isolated -/

theorem finished_filtering_effects (sg : Smoother) (wres : Except String Unit)
    (s : AppState) (w p : Nat) (d : Dataset) (hs : s.data = some d) :
    (finished_filtering sg wres s w p).2 =
      (applyFilter sg (normalizeWindow w p) p d).2 ++
        saveEffects wres s.loaded_file_path ++
        [Effect.showTable (renderTable (applyFilter sg (normalizeWindow w p) p d).1)] := by
  simp [finished_filtering, hs, display_data]

theorem filterColumn_failed (sg : Smoother) (w p : Nat) (c : Column)
    (hwl : isWavelength c.name = false) (hfail : sg w p c.values = none) :
    filterColumn sg w p c = (c, [Effect.diagFilterColumnError c.name]) := by
  simp [filterColumn, hwl, hfail]

theorem filterColumn_succeeded (sg : Smoother) (w p : Nat) (c : Column)
    (ys : List Value) (hwl : isWavelength c.name = false)
    (hok : sg w p c.values = some ys) :
    filterColumn sg w p c = ({ c with values := ys }, []) := by
  simp [filterColumn, hwl, hok]

theorem applyFilter_effects_mem (sg : Smoother) (w p : Nat) (d : Dataset)
    (c : Column) (hc : c ∈ d) (hwl : isWavelength c.name = false)
    (hfail : sg w p c.values = none) :
    Effect.diagFilterColumnError c.name ∈ (applyFilter sg w p d).2 := by
  simp only [applyFilter, List.mem_flatten]
  refine ⟨[Effect.diagFilterColumnError c.name], ?_, by simp⟩
  refine List.mem_map.mpr ⟨c, hc, ?_⟩
  rw [filterColumn_failed sg w p c hwl hfail]

/-- C4: if the smoother raises on one non-wavelength column, that column is
left at its previous values and the per-column diagnostic naming it is
printed, while every other non-wavelength column on which the smoother
succeeds is still replaced by its smoothed values — one bad column never
aborts the pass. -/
theorem filter_failure_isolated (sg : Smoother) (wres : Except String Unit)
    (s : AppState) (w p : Nat) (d : Dataset) (i : Nat) (c : Column)
    (hs : s.data = some d) (hi : d[i]? = some c)
    (hwl : isWavelength c.name = false)
    (hfail : sg (normalizeWindow w p) p c.values = none) :
    (∃ d2, (finished_filtering sg wres s w p).1.data = some d2 ∧
      d2[i]? = some c) ∧
    Effect.diagFilterColumnError c.name ∈ (finished_filtering sg wres s w p).2 ∧
    (∀ (j : Nat) (c2 : Column) (ys : List Value), d[j]? = some c2 →
      isWavelength c2.name = false →
      sg (normalizeWindow w p) p c2.values = some ys →
      ∃ d2, (finished_filtering sg wres s w p).1.data = some d2 ∧
        d2[j]? = some { c2 with values := ys }) := by
  refine ⟨⟨(applyFilter sg (normalizeWindow w p) p d).1,
      finished_filtering_state sg wres s w p d hs, ?_⟩, ?_, ?_⟩
  · rw [applyFilter_fst_getElem?, hi, Option.map_some']
    rw [show (filterColumn sg (normalizeWindow w p) p c).1 = c by
      rw [filterColumn_failed sg _ p c hwl hfail]]
  · rw [finished_filtering_effects sg wres s w p d hs]
    simp only [List.mem_append]
    exact Or.inl (Or.inl
      (applyFilter_effects_mem sg _ p d c (List.getElem?_mem hi) hwl hfail))
  · intro j c2 ys hj hwl2 hok
    refine ⟨(applyFilter sg (normalizeWindow w p) p d).1,
      finished_filtering_state sg wres s w p d hs, ?_⟩
    rw [applyFilter_fst_getElem?, hj, Option.map_some',
      show (filterColumn sg (normalizeWindow w p) p c2).1 = { c2 with values := ys } by
        rw [filterColumn_succeeded sg _ p c2 ys hwl2 hok]]

def cBad : Column := ⟨"bad", [Value.str "x", Value.num 1, Value.num 2]⟩

def dF : Dataset :=
  [⟨"wavelength", [Value.num 400, Value.num 401, Value.num 402]⟩, cBad,
   ⟨"intensity", [Value.num 5, Value.num 6, Value.num 7]⟩]

def sF : AppState :=
  { initState with data := some dF, loaded_file_path := some "/tmp/sample.xlsx" }

theorem filter_failure_isolated_witness :
    sF.data = some dF ∧ dF[1]? = some cBad ∧
    isWavelength cBad.name = false ∧
    savgolModel (normalizeWindow 3 1) 1 cBad.values = none ∧
    (∃ d2, (finished_filtering savgolModel (Except.ok ()) sF 3 1).1.data = some d2 ∧
      d2[1]? = some cBad) ∧
    Effect.diagFilterColumnError cBad.name
      ∈ (finished_filtering savgolModel (Except.ok ()) sF 3 1).2 :=
  ⟨rfl, rfl, by decide, by decide,
    (filter_failure_isolated savgolModel (Except.ok ()) sF 3 1 dF 1 cBad
      rfl rfl (by decide) (by decide)).1,
    (filter_failure_isolated savgolModel (Except.ok ()) sF 3 1 dF 1 cBad
      rfl rfl (by decide) (by decide)).2.1⟩

/-! ## C5: loading is atomic -/

/-- C5: a cancelled dialog or a parse failure leaves the whole state
(dataset and source path included) unchanged, with the load diagnostic
printed on failure; a successful parse unconditionally installs the new
dataset and source path and auto-displays the table; no load outcome raises
out of the handler. -/
theorem load_atomic (s : AppState) (fp e : String) (d : Dataset) :
    load_excel_file s none = (s, []) ∧
    load_excel_file s (some (fp, Except.error e)) = (s, [Effect.diagLoadError e]) ∧
    (load_excel_file s (some (fp, Except.ok d))).1 =
      { s with data := some d, loaded_file_path := some fp } ∧
    Effect.showTable (renderTable d) ∈ (load_excel_file s (some (fp, Except.ok d))).2 ∧
    ∀ (dialog : Option (String × Except String Dataset)) (msg : String),
      Effect.exception msg ∉ (load_excel_file s dialog).2 := by
  refine ⟨rfl, rfl, ?_, ?_, ?_⟩
  · simp [load_excel_file, display_data]
  · simp [load_excel_file, display_data]
  · intro dialog msg
    rcases dialog with _ | ⟨fp2, res⟩
    · simp [load_excel_file]
    · rcases res with e2 | d2 <;> simp [load_excel_file, display_data]

/-! ## C6: output path derivation -/

theorem applyFilter_effects_diag (sg : Smoother) (w p : Nat) (d : Dataset)
    (e : Effect) (he : e ∈ (applyFilter sg w p d).2) :
    ∃ name, e = Effect.diagFilterColumnError name := by
  simp only [applyFilter, List.mem_flatten] at he
  obtain ⟨l, hl, hel⟩ := he
  obtain ⟨c, hc, rfl⟩ := List.mem_map.mp hl
  by_cases hwl : isWavelength c.name
  · rw [show (filterColumn sg w p c).2 = [] by simp [filterColumn, hwl]] at hel
    exact absurd hel (by simp)
  · rcases hsg : sg w p c.values with _ | ys
    · rw [show (filterColumn sg w p c).2 = [Effect.diagFilterColumnError c.name] by
        simp [filterColumn, hwl, hsg]] at hel
      exact ⟨c.name, by simpa using hel⟩
    · rw [show (filterColumn sg w p c).2 = [] by simp [filterColumn, hwl, hsg]] at hel
      exact absurd hel (by simp)

/-- C6: with a dataset loaded and a source path recorded, the finalize step
attempts exactly one write, whose target is the source path with the fixed
suffix inserted between basename and extension; with no source path, no
write is attempted and the missing-path diagnostic is printed instead. -/
theorem save_path_derivation (sg : Smoother) (wres : Except String Unit)
    (s : AppState) (w p : Nat) (d : Dataset) (hs : s.data = some d) :
    (∀ fp, s.loaded_file_path = some fp →
      Effect.writeFile ((splitext fp).1 ++ "_savitzky_filtered" ++ (splitext fp).2)
        ∈ (finished_filtering sg wres s w p).2 ∧
      ∀ path, Effect.writeFile path ∈ (finished_filtering sg wres s w p).2 →
        path = (splitext fp).1 ++ "_savitzky_filtered" ++ (splitext fp).2) ∧
    (s.loaded_file_path = none →
      (∀ path, Effect.writeFile path ∉ (finished_filtering sg wres s w p).2) ∧
      Effect.diagNoPath ∈ (finished_filtering sg wres s w p).2) := by
  constructor
  · intro fp hfp
    rw [finished_filtering_effects sg wres s w p d hs, hfp]
    constructor
    · rcases wres with e | u <;> simp [saveEffects]
    · intro path hmem
      simp only [List.mem_append] at hmem
      rcases hmem with (h1 | h2) | h3
      · obtain ⟨name, hn⟩ := applyFilter_effects_diag _ _ _ _ _ h1
        exact absurd hn (by simp)
      · rcases wres with e | u <;> simpa [saveEffects] using h2
      · simp at h3
  · intro hnone
    rw [finished_filtering_effects sg wres s w p d hs, hnone]
    constructor
    · intro path hmem
      simp only [List.mem_append] at hmem
      rcases hmem with (h1 | h2) | h3
      · obtain ⟨name, hn⟩ := applyFilter_effects_diag _ _ _ _ _ h1
        exact absurd hn (by simp)
      · simp [saveEffects] at h2
      · simp at h3
    · simp [saveEffects]

theorem save_path_derivation_witness :
    sW.data = some dW ∧ sW.loaded_file_path = some "/tmp/sample.xlsx" ∧
    (splitext "/tmp/sample.xlsx").1 = "/tmp/sample" ∧
    (splitext "/tmp/sample.xlsx").2 = ".xlsx" ∧
    Effect.writeFile ((splitext "/tmp/sample.xlsx").1 ++ "_savitzky_filtered" ++
        (splitext "/tmp/sample.xlsx").2)
      ∈ (finished_filtering savgolModel (Except.ok ()) sW 7 2).2 :=
  ⟨rfl, rfl, by decide, by decide,
    ((save_path_derivation savgolModel (Except.ok ()) sW 7 2 dW rfl).1
      "/tmp/sample.xlsx" rfl).1⟩

/-! ## C7: a failing write leaves the in-memory state untouched -/

/-- C7: the state resulting from the finalize step is the same whatever the
write verdict: the filtered dataset stands and is redisplayed, and a failing
write only adds the save-error diagnostic (when a source path exists). -/
theorem write_failure_preserves_state (sg : Smoother) (s : AppState)
    (w p : Nat) (d : Dataset) (e : String) (hs : s.data = some d) :
    (finished_filtering sg (Except.error e) s w p).1 =
      (finished_filtering sg (Except.ok ()) s w p).1 ∧
    (finished_filtering sg (Except.error e) s w p).1.data =
      some (applyFilter sg (normalizeWindow w p) p d).1 ∧
    Effect.showTable (renderTable (applyFilter sg (normalizeWindow w p) p d).1)
      ∈ (finished_filtering sg (Except.error e) s w p).2 ∧
    (∀ fp, s.loaded_file_path = some fp →
      Effect.diagSaveError e ∈ (finished_filtering sg (Except.error e) s w p).2) := by
  refine ⟨?_, finished_filtering_state sg _ s w p d hs, ?_, ?_⟩
  · simp [finished_filtering, hs, display_data]
  · rw [finished_filtering_effects sg _ s w p d hs]
    simp
  · intro fp hfp
    rw [finished_filtering_effects sg _ s w p d hs, hfp]
    simp [saveEffects]

theorem write_failure_preserves_state_witness :
    sW.data = some dW ∧ sW.loaded_file_path = some "/tmp/sample.xlsx" ∧
    (finished_filtering savgolModel (Except.error "disk full") sW 7 2).1 =
      (finished_filtering savgolModel (Except.ok ()) sW 7 2).1 ∧
    Effect.diagSaveError "disk full"
      ∈ (finished_filtering savgolModel (Except.error "disk full") sW 7 2).2 :=
  ⟨rfl, rfl,
    (write_failure_preserves_state savgolModel sW 7 2 dW "disk full" rfl).1,
    (write_failure_preserves_state savgolModel sW 7 2 dW "disk full" rfl).2.2.2
      "/tmp/sample.xlsx" rfl⟩

/-! ## C8: plot precondition (corrected at the zero-column edge) -/

/-- C8 counterexample: on a loaded zero-column dataset (as produced by
parsing an empty sheet) the plot action renders nothing but also prints no
wavelength diagnostic — an uncaught `IndexError` escapes the handler
instead, refuting the diagnostic-and-no-crash clause as stated. -/
theorem plot_empty_dataset_raises :
    ({ initState with data := some [] } : AppState).data = some ([] : Dataset) ∧
    (plot_data { initState with data := some [] }).2 =
      [Effect.exception "IndexError"] ∧
    Effect.diagPlotPrecondition ∉
      (plot_data { initState with data := some [] }).2 :=
  ⟨rfl, rfl, by decide⟩

/-- C8 (amended): for a loaded dataset with at least one column, a chart is
rendered exactly when the first column is case-insensitively named
`wavelength` and a second column exists; whenever that precondition fails,
the handler prints the wavelength-requirement diagnostic, renders no chart
and raises nothing.  (On a zero-column dataset the handler instead raises.) -/
theorem plot_precondition (s : AppState) (c0 : Column) (rest : List Column)
    (hs : s.data = some (c0 :: rest)) :
    ((∃ x y, Effect.showPlot x y ∈ (plot_data s).2) ↔
      (isWavelength c0.name = true ∧ rest ≠ [])) ∧
    (¬(isWavelength c0.name = true ∧ rest ≠ []) →
      (plot_data s).2 = [Effect.diagPlotPrecondition] ∧
      (∀ x y, Effect.showPlot x y ∉ (plot_data s).2) ∧
      ∀ msg, Effect.exception msg ∉ (plot_data s).2) := by
  rcases rest with _ | ⟨c1, rest2⟩
  · simp [plot_data, hs]
  · by_cases hw : isWavelength c0.name
    · constructor
      · simp [plot_data, hs, hw]
      · intro hcon
        exact absurd ⟨hw, by simp⟩ hcon
    · simp [plot_data, hs, hw]

def cTime : Column := ⟨"time", [Value.num 0, Value.num 1]⟩

def cInt : Column := ⟨"intensity", [Value.num 5, Value.num 6]⟩

def sT : AppState :=
  { initState with data := some [cTime, cInt], loaded_file_path := some "/tmp/t.xlsx" }

theorem plot_precondition_witness :
    sT.data = some (cTime :: [cInt]) ∧
    ¬(isWavelength cTime.name = true ∧ ([cInt] : List Column) ≠ []) ∧
    (plot_data sT).2 = [Effect.diagPlotPrecondition] :=
  ⟨rfl, by decide,
    ((plot_precondition sT cTime [cInt] rfl).2 (by decide)).1⟩

/-! ## C9: load then display round-trips every cell -/

theorem find?_eq_of_nodup (d : Dataset) (j : Nat) (c : Column)
    (hnodup : (d.map Column.name).Nodup) (hj : d[j]? = some c) :
    d.find? (fun c2 => c2.name == c.name) = some c := by
  induction d generalizing j with
  | nil => simp at hj
  | cons hd tl ih =>
    rcases j with _ | j
    · obtain rfl : hd = c := by simpa using hj
      simp [List.find?_cons]
    · simp only [List.getElem?_cons_succ] at hj
      have hne : hd.name ≠ c.name := by
        have hmem : c.name ∈ tl.map Column.name :=
          List.mem_map_of_mem _ (List.getElem?_mem hj)
        intro he
        exact (List.nodup_cons.mp (by simpa using hnodup)).1 (he ▸ hmem)
      rw [List.find?_cons]
      simp only [beq_eq_false_iff_ne.mpr hne]
      exact ih j (List.nodup_cons.mp (by simpa using hnodup)).2 hj

/-- C9: loading a valid spreadsheet (distinct column names, rectangular,
wavelength-named first column) auto-displays a grid with one row per
sample, one column per field, header row equal to the column names, and
every cell holding the stringified source value at that position. -/
theorem load_display_roundtrip (s : AppState) (fp : String) (d : Dataset)
    (hnodup : (d.map Column.name).Nodup)
    (hrect : ∀ c ∈ d, c.values.length = datasetRows d)
    (_hwav : ∀ c0, d[0]? = some c0 → isWavelength c0.name = true) :
    Effect.showTable (renderTable d)
      ∈ (load_excel_file s (some (fp, Except.ok d))).2 ∧
    (renderTable d).nrows = datasetRows d ∧
    (renderTable d).ncols = d.length ∧
    (renderTable d).headers = d.map Column.name ∧
    ∀ (i j : Nat) (c : Column), i < datasetRows d → d[j]? = some c →
      ∃ v, c.values[i]? = some v ∧
        (renderTable d).cells[i]?.bind (fun row => row[j]?) =
          some (some (pyStr v)) := by
  refine ⟨?_, rfl, rfl, rfl, ?_⟩
  · simp [load_excel_file, display_data]
  · intro i j c hi hj
    have hlen : c.values.length = datasetRows d := hrect c (List.getElem?_mem hj)
    have hiv : i < c.values.length := hlen ▸ hi
    refine ⟨c.values[i], List.getElem?_eq_getElem hiv, ?_⟩
    have hcell : (renderTable d).cells[i]? =
        some (d.map (fun c2 => (ilocCell d i c2.name).map pyStr)) := by
      simp only [renderTable, List.getElem?_map, List.getElem?_range hi,
        Option.map_some']
    rw [hcell, Option.some_bind, List.getElem?_map, hj, Option.map_some']
    rw [ilocCell, find?_eq_of_nodup d j c hnodup hj, Option.some_bind]
    rw [List.getElem?_eq_getElem hiv, Option.map_some']

theorem load_display_roundtrip_witness :
    (dW.map Column.name).Nodup ∧
    (∀ c ∈ dW, c.values.length = datasetRows dW) ∧
    (∀ c0, dW[0]? = some c0 → isWavelength c0.name = true) ∧
    Effect.showTable (renderTable dW)
      ∈ (load_excel_file initState (some ("/tmp/sample.xlsx", Except.ok dW))).2 ∧
    (renderTable dW).headers = dW.map Column.name :=
  ⟨by decide, by decide, by decide,
    (load_display_roundtrip initState "/tmp/sample.xlsx" dW (by decide)
      (by decide) (by decide)).1,
    (load_display_roundtrip initState "/tmp/sample.xlsx" dW (by decide)
      (by decide) (by decide)).2.2.2.1⟩

/-! ## C10: a present dataset implies a recorded source path -/

theorem display_data_state (s : AppState) : (display_data s).1 = s := by
  rcases h : s.data <;> simp [display_data, h]

theorem plot_data_state (s : AppState) : (plot_data s).1 = s := by
  rcases h : s.data with _ | d
  · simp [plot_data, h]
  · rcases d with _ | ⟨c0, d2⟩
    · simp [plot_data, h]
    · rcases d2 with _ | ⟨c1, d3⟩
      · simp [plot_data, h]
      · by_cases hw : isWavelength c0.name <;> simp [plot_data, h, hw]

theorem finished_filtering_path (sg : Smoother) (wres : Except String Unit)
    (s : AppState) (w p : Nat) :
    (finished_filtering sg wres s w p).1.loaded_file_path =
      s.loaded_file_path := by
  rcases h : s.data <;> simp [finished_filtering, h, display_data]

theorem step_preserves_path (s : AppState) (e : Event)
    (h : s.data.isSome → s.loaded_file_path.isSome) :
    (step s e).data.isSome → (step s e).loaded_file_path.isSome := by
  cases e with
  | load dialog =>
    rcases dialog with _ | ⟨fp, res⟩
    · simpa [step, load_excel_file] using h
    · rcases res with e2 | d2
      · simpa [step, load_excel_file] using h
      · simp [step, load_excel_file, display_data]
  | display => simpa [step, display_data_state] using h
  | plot => simpa [step, plot_data_state] using h
  | activateFilter =>
    rcases hd : s.data with _ | d
    · simp [step, activate_filter_mode, hd]
    · simpa [step, activate_filter_mode, hd] using h
  | finishFilter sg wres w p =>
    rcases hd : s.data with _ | d
    · simp [step, finished_filtering, hd]
    · intro _
      simp only [step, finished_filtering_path]
      exact h (by simp [hd])
  | togglePreproc b =>
    rcases b <;> simpa [step, toggle_preprocessing_options] using h

/-- C10: in every state reachable from startup, a present dataset implies a
recorded source path (the two are only ever assigned together by a
successful load), so the missing-path branch of the finalize step can never
fire while a dataset exists. -/
theorem reachable_data_implies_path (es : List Event) :
    ((run es).data.isSome → (run es).loaded_file_path.isSome) ∧
    (∀ (d : Dataset) (sg : Smoother) (wres : Except String Unit) (w p : Nat),
      (run es).data = some d →
      Effect.diagNoPath ∉ (finished_filtering sg wres (run es) w p).2) := by
  have hinv : ∀ (l : List Event) (s : AppState),
      (s.data.isSome → s.loaded_file_path.isSome) →
      ((l.foldl step s).data.isSome → (l.foldl step s).loaded_file_path.isSome) := by
    intro l
    induction l with
    | nil => exact fun s hs => hs
    | cons e tl ih => exact fun s hs => ih (step s e) (step_preserves_path s e hs)
  have h1 : (run es).data.isSome → (run es).loaded_file_path.isSome :=
    hinv es initState (by simp [initState])
  refine ⟨h1, ?_⟩
  intro d sg wres w p hd
  obtain ⟨fp, hfp⟩ : ∃ fp, (run es).loaded_file_path = some fp := by
    have hps := h1 (by simp [hd])
    rcases hp : (run es).loaded_file_path with _ | fp
    · rw [hp] at hps; simp at hps
    · exact ⟨fp, rfl⟩
  rw [finished_filtering_effects sg wres (run es) w p d hd, hfp]
  intro hmem
  simp only [List.mem_append] at hmem
  rcases hmem with (h1m | h2m) | h3m
  · obtain ⟨name, hn⟩ := applyFilter_effects_diag _ _ _ _ _ h1m
    exact absurd hn (by simp)
  · rcases wres with e2 | u <;> simp [saveEffects] at h2m
  · simp at h3m

def esW : List Event :=
  [Event.load (some ("/tmp/sample.xlsx", Except.ok dW))]

theorem reachable_data_implies_path_witness :
    (run esW).data = some dW ∧
    (run esW).loaded_file_path.isSome ∧
    Effect.diagNoPath ∉
      (finished_filtering savgolModel (Except.ok ()) (run esW) 7 2).2 :=
  ⟨rfl, (reachable_data_implies_path esW).1 (by rw [show (run esW).data = some dW from rfl]; rfl),
    (reachable_data_implies_path esW).2 dW savgolModel (Except.ok ()) 7 2 rfl⟩

end Spectro
